import Mathlib

/-!
Verification of the analogue-matching core of the `analogue` repository
(`src/Python/analogue_search.py`, `src/Python/select_analogues_from_distances.py`,
`src/Python/dask_slice.py`).

Modelling conventions:
* `pd.Timestamp` dates and `pd.Timedelta` separations are integers in a common
  time unit (days); absolute differences are `Int` absolute values.
* float distances are exact rationals (`ℚ`): the selection logic only compares
  distances, never does transcendental arithmetic on them.
* latitude/longitude/weight arithmetic (`cos`, `exp`) is exact-real (`ℝ`).
* a pandas DataFrame with columns `date`, `distance`, `year` is a `List Row`;
  boolean-mask selection `df[mask]` is `List.filter` with the mask predicate.
-/

/-- One row of the `all_distances` DataFrame: the `date` column (a timestamp,
in integer time units), the `distance` column, and the derived `year` column
(computed upstream as `date.dt.year`; carried here as a plain column, exactly
as `select_analogues_from_distances.py` reads it back from CSV). -/
structure Row where
  date : Int
  distance : Rat
  year : Int
deriving DecidableEq

/-- A selected analogue record: a chosen row together with its 1-based rank,
as produced by `result['rank'] = range(1, len(result) + 1)`. -/
structure Ranked where
  row : Row
  rank : Nat
deriving DecidableEq

/-- Comparison used by `df.sort_values(distance_col)`: ascending distance. -/
def distLE (a b : Row) : Prop := a.distance ≤ b.distance

instance : DecidableRel distLE := fun a b =>
  inferInstanceAs (Decidable (a.distance ≤ b.distance))

instance : IsTotal Row distLE := ⟨fun a b => le_total a.distance b.distance⟩

instance : IsTrans Row distLE := ⟨fun _ _ _ h1 h2 => le_trans h1 h2⟩

/-- The greedy acceptance loop of `select_time_separated_analogues`
(analogue_search.py lines 304-319): walk the distance-sorted rows, accept a
candidate iff its date is not within `min_separation` of any already chosen
date, and break once `len(chosen) >= n_analogues` (checked after appending). -/
def selectLoop (min_separation : Int) (n_analogues : Nat) :
    List Row → List Row → List Row
  | [], chosen => chosen
  | r :: rest, chosen =>
    if chosen.all (fun c => !decide (|r.date - c.date| < min_separation)) then
      if n_analogues ≤ chosen.length + 1 then chosen ++ [r]
      else selectLoop min_separation n_analogues rest (chosen ++ [r])
    else selectLoop min_separation n_analogues rest chosen

/-- Attach ranks `k, k+1, ...` to a list of chosen rows, modelling
`result['rank'] = range(1, len(result) + 1)` when started at `k = 1`. -/
def rankFrom : Nat → List Row → List Ranked
  | _, [] => []
  | k, r :: rest => ⟨r, k⟩ :: rankFrom (k + 1) rest

/-- `select_time_separated_analogues(df, n_analogues, ..., min_separation)`
(analogue_search.py lines 264-325): sort by distance ascending, run the greedy
minimum-separation loop, return the chosen rows with ranks 1..k. -/
def select_time_separated_analogues (df : List Row) (n_analogues : Nat)
    (min_separation : Int) : List Ranked :=
  rankFrom 1 (selectLoop min_separation n_analogues
    (List.insertionSort distLE df) [])

/-- The pairwise time-separation relation maintained by the greedy loop. -/
def sepRel (min_separation : Int) (a b : Row) : Prop :=
  min_separation ≤ |a.date - b.date|

theorem sepRel_symm {s : Int} {a b : Row} (h : sepRel s a b) : sepRel s b a := by
  unfold sepRel at h ⊢
  rwa [abs_sub_comm]

theorem accept_all {s : Int} {r : Row} {chosen : List Row}
    (h : chosen.all (fun c => !decide (|r.date - c.date| < s)) = true) :
    ∀ c ∈ chosen, sepRel s r c := by
  intro c hc
  have h2 := List.all_eq_true.mp h c hc
  simp only [Bool.not_eq_true', decide_eq_false_iff_not, not_lt] at h2
  exact h2

theorem selectLoop_pairwise {s : Int} {n : Nat} :
    ∀ rows chosen : List Row, chosen.Pairwise (sepRel s) →
      (selectLoop s n rows chosen).Pairwise (sepRel s) := by
  intro rows
  induction rows with
  | nil => intro chosen h; simpa [selectLoop] using h
  | cons r rest ih =>
    intro chosen h
    unfold selectLoop
    split
    · rename_i hacc
      have hpw : (chosen ++ [r]).Pairwise (sepRel s) := by
        rw [List.pairwise_append]
        refine ⟨h, List.pairwise_singleton _ _, ?_⟩
        intro a ha b hb
        rw [List.mem_singleton] at hb
        subst hb
        exact sepRel_symm (accept_all hacc a ha)
      split
      · exact hpw
      · exact ih _ hpw
    · exact ih _ h

theorem selectLoop_mem {s : Int} {n : Nat} :
    ∀ rows chosen : List Row, ∀ x ∈ selectLoop s n rows chosen,
      x ∈ chosen ∨ x ∈ rows := by
  intro rows
  induction rows with
  | nil => intro chosen x hx; simp [selectLoop] at hx; exact Or.inl hx
  | cons r rest ih =>
    intro chosen x hx
    unfold selectLoop at hx
    split at hx
    · split at hx
      · rw [List.mem_append, List.mem_singleton] at hx
        rcases hx with h | h
        · exact Or.inl h
        · exact Or.inr (by simp [h])
      · rcases ih _ x hx with h | h
        · rw [List.mem_append, List.mem_singleton] at h
          rcases h with h | h
          · exact Or.inl h
          · exact Or.inr (by simp [h])
        · exact Or.inr (List.mem_cons_of_mem _ h)
    · rcases ih _ x hx with h | h
      · exact Or.inl h
      · exact Or.inr (List.mem_cons_of_mem _ h)

theorem selectLoop_length {s : Int} {n : Nat} :
    ∀ rows chosen : List Row,
      (selectLoop s n rows chosen).length ≤ max n (chosen.length + 1) := by
  intro rows
  induction rows with
  | nil =>
    intro chosen
    simp only [selectLoop]
    exact le_max_of_le_right (Nat.le_succ _)
  | cons r rest ih =>
    intro chosen
    unfold selectLoop
    split
    · split
      · rename_i hstop
        simp only [List.length_append, List.length_singleton]
        exact le_max_of_le_right le_rfl
      · rename_i hgo
        push_neg at hgo
        have h2 := ih (chosen ++ [r])
        simp only [List.length_append, List.length_singleton] at h2
        have h3 : chosen.length + 1 + 1 ≤ n := hgo
        calc (selectLoop s n rest (chosen ++ [r])).length
            ≤ max n (chosen.length + 1 + 1) := h2
          _ = n := max_eq_left h3
          _ ≤ max n (chosen.length + 1) := le_max_left _ _
    · exact ih chosen

theorem selectLoop_sorted {s : Int} {n : Nat} :
    ∀ rows chosen : List Row, List.Sorted distLE rows →
      List.Sorted distLE chosen →
      (∀ c ∈ chosen, ∀ x ∈ rows, distLE c x) →
      List.Sorted distLE (selectLoop s n rows chosen) := by
  intro rows
  induction rows with
  | nil => intro chosen _ hc _; simpa [selectLoop] using hc
  | cons r rest ih =>
    intro chosen hrows hc hcr
    have hrest : List.Sorted distLE rest := hrows.of_cons
    have hr_rest : ∀ x ∈ rest, distLE r x :=
      fun x hx => List.rel_of_sorted_cons hrows x hx
    have happ : List.Sorted distLE (chosen ++ [r]) := by
      rw [List.Sorted, List.pairwise_append]
      refine ⟨hc, List.sorted_singleton _, ?_⟩
      intro a ha b hb
      rw [List.mem_singleton] at hb
      subst hb
      exact hcr a ha _ (List.mem_cons_self _ _)
    have happ_rest : ∀ c ∈ chosen ++ [r], ∀ x ∈ rest, distLE c x := by
      intro c hcmem x hx
      rw [List.mem_append, List.mem_singleton] at hcmem
      rcases hcmem with h | h
      · exact hcr c h x (List.mem_cons_of_mem _ hx)
      · subst h; exact hr_rest x hx
    unfold selectLoop
    split
    · split
      · exact happ
      · exact ih _ hrest happ happ_rest
    · exact ih _ hrest hc (fun c hcm x hx => hcr c hcm x (List.mem_cons_of_mem _ hx))

theorem rankFrom_length : ∀ (k : Nat) (l : List Row), (rankFrom k l).length = l.length := by
  intro k l
  induction l generalizing k with
  | nil => rfl
  | cons r rest ih => simp [rankFrom, ih]

theorem rankFrom_map_rank : ∀ (k : Nat) (l : List Row),
    (rankFrom k l).map Ranked.rank = List.range' k l.length := by
  intro k l
  induction l generalizing k with
  | nil => rfl
  | cons r rest ih =>
    simp [rankFrom, List.range'_succ, ih]

theorem mem_rankFrom {x : Ranked} : ∀ {k : Nat} {l : List Row}, x ∈ rankFrom k l →
    ∃ i, ∃ h : i < l.length, x.row = l.get ⟨i, h⟩ ∧ x.rank = k + i := by
  intro k l
  induction l generalizing k with
  | nil => intro h; cases h
  | cons r rest ih =>
    intro h
    rw [rankFrom, List.mem_cons] at h
    rcases h with h | h
    · exact ⟨0, Nat.succ_pos _, by simp [h]⟩
    · obtain ⟨i, hi, hrow, hrank⟩ := ih h
      exact ⟨i + 1, Nat.succ_lt_succ hi, by simpa using hrow, by omega⟩

theorem ranked_ext {x y : Ranked} (h1 : x.row = y.row) (h2 : x.rank = y.rank) :
    x = y := by
  cases x; cases y
  simp_all

/-- C1: for every candidate list, minimum separation and target count, any two
distinct records returned by `select_time_separated_analogues` have dates whose
absolute time difference is at least the minimum separation. -/
theorem select_analogues_pairwise_separated
    (df : List Row) (n_analogues : Nat) (min_separation : Int)
    (x1 x2 : Ranked)
    (h1 : x1 ∈ select_time_separated_analogues df n_analogues min_separation)
    (h2 : x2 ∈ select_time_separated_analogues df n_analogues min_separation)
    (hne : x1 ≠ x2) :
    min_separation ≤ |x1.row.date - x2.row.date| := by
  unfold select_time_separated_analogues at h1 h2
  have hpw : (selectLoop min_separation n_analogues
      (List.insertionSort distLE df) []).Pairwise (sepRel min_separation) :=
    selectLoop_pairwise _ _ List.Pairwise.nil
  obtain ⟨i, hi, hrow1, hrank1⟩ := mem_rankFrom h1
  obtain ⟨j, hj, hrow2, hrank2⟩ := mem_rankFrom h2
  rcases lt_trichotomy i j with hij | hij | hij
  · have h := List.pairwise_iff_get.mp hpw ⟨i, hi⟩ ⟨j, hj⟩ hij
    rw [← hrow1, ← hrow2] at h
    exact h
  · exfalso
    apply hne
    apply ranked_ext
    · rw [hrow1, hrow2]
      congr 1
      exact Fin.ext hij
    · omega
  · have h := List.pairwise_iff_get.mp hpw ⟨j, hj⟩ ⟨i, hi⟩ hij
    rw [← hrow1, ← hrow2] at h
    exact sepRel_symm h

/-- Witness for C1 on the spec §8 scenario (days 0, 2, 10; N = 2; separation 5):
the two returned records are 10 days apart. -/
theorem select_analogues_pairwise_separated_witness :
    (5 : Int) ≤ |(Ranked.mk ⟨0, 1, 1990⟩ 1).row.date -
      (Ranked.mk ⟨10, 3, 1990⟩ 2).row.date| :=
  select_analogues_pairwise_separated
    [⟨0, 1, 1990⟩, ⟨2, 2, 1990⟩, ⟨10, 3, 1990⟩] 2 5
    ⟨⟨0, 1, 1990⟩, 1⟩ ⟨⟨10, 3, 1990⟩, 2⟩
    (by decide) (by decide) (by decide)

/-- C2 counterexample: with target count `N = 0` and a nonempty candidate list,
`select_time_separated_analogues` still returns one record (the length-check
`len(chosen) >= n_analogues` runs only after the first acceptance), so the
claim "returns at most N records, including N = 0" fails at N = 0. -/
theorem select_analogues_nzero_counterexample :
    ¬ ((select_time_separated_analogues [⟨0, 1, 1990⟩] 0 5).length ≤ 0) := by
  decide

/-- C2 (amended): `select_time_separated_analogues` returns at most
`max N 1` records; in particular at most N records whenever N ≥ 1. -/
theorem select_analogues_length_le_max
    (df : List Row) (n_analogues : Nat) (min_separation : Int) :
    (select_time_separated_analogues df n_analogues min_separation).length ≤
      max n_analogues 1 := by
  unfold select_time_separated_analogues
  rw [rankFrom_length]
  simpa using selectLoop_length (s := min_separation) (n := n_analogues)
    (List.insertionSort distLE df) []

/-- C3: the records returned by `select_time_separated_analogues` carry rank
values exactly 1..k (k = number returned), and among returned records a smaller
or equal rank means a smaller or equal distance. -/
theorem select_analogues_ranks_ascending
    (df : List Row) (n_analogues : Nat) (min_separation : Int) :
    ((select_time_separated_analogues df n_analogues min_separation).map
        Ranked.rank =
      List.range' 1
        (select_time_separated_analogues df n_analogues min_separation).length) ∧
    ∀ x1 ∈ select_time_separated_analogues df n_analogues min_separation,
      ∀ x2 ∈ select_time_separated_analogues df n_analogues min_separation,
        x1.rank ≤ x2.rank → x1.row.distance ≤ x2.row.distance := by
  constructor
  · unfold select_time_separated_analogues
    rw [rankFrom_length, rankFrom_map_rank]
  · intro x1 h1 x2 h2 hrank
    unfold select_time_separated_analogues at h1 h2
    have hsorted : List.Sorted distLE (selectLoop min_separation n_analogues
        (List.insertionSort distLE df) []) := by
      apply selectLoop_sorted
      · exact List.sorted_insertionSort distLE df
      · exact List.sorted_nil
      · intro c hc; cases hc
    obtain ⟨i, hi, hrow1, hrank1⟩ := mem_rankFrom h1
    obtain ⟨j, hj, hrow2, hrank2⟩ := mem_rankFrom h2
    have hij : i ≤ j := by omega
    rcases Nat.lt_or_ge i j with hlt | hge
    · have h := hsorted.rel_get_of_lt (a := ⟨i, hi⟩) (b := ⟨j, hj⟩) hlt
      rw [← hrow1, ← hrow2] at h
      exact h
    · have hji : i = j := le_antisymm hij hge
      subst hji
      rw [hrow1, hrow2]

/-- Witness for C3 on the spec §8 scenario: ranks are `[1, 2]` and the rank-1
record's distance is at most the rank-2 record's distance. -/
theorem select_analogues_ranks_ascending_witness :
    ((select_time_separated_analogues
        [⟨0, 1, 1990⟩, ⟨2, 2, 1990⟩, ⟨10, 3, 1990⟩] 2 5).map Ranked.rank =
      List.range' 1
        (select_time_separated_analogues
          [⟨0, 1, 1990⟩, ⟨2, 2, 1990⟩, ⟨10, 3, 1990⟩] 2 5).length) ∧
    (Ranked.mk ⟨0, 1, 1990⟩ 1).row.distance ≤
      (Ranked.mk ⟨10, 3, 1990⟩ 2).row.distance :=
  ⟨(select_analogues_ranks_ascending
      [⟨0, 1, 1990⟩, ⟨2, 2, 1990⟩, ⟨10, 3, 1990⟩] 2 5).1,
   (select_analogues_ranks_ascending
      [⟨0, 1, 1990⟩, ⟨2, 2, 1990⟩, ⟨10, 3, 1990⟩] 2 5).2
     ⟨⟨0, 1, 1990⟩, 1⟩ (by decide) ⟨⟨10, 3, 1990⟩, 2⟩ (by decide) (by decide)⟩

/-- Rows of the selection output come from the input candidate list
(the greedy loop only filters `df_sorted`, a permutation of `df`). -/
theorem select_row_mem {df : List Row} {n : Nat} {s : Int} {x : Ranked}
    (h : x ∈ select_time_separated_analogues df n s) : x.row ∈ df := by
  unfold select_time_separated_analogues at h
  obtain ⟨i, hi, hrow, _⟩ := mem_rankFrom h
  have hmem : x.row ∈ selectLoop s n (List.insertionSort distLE df) [] := by
    rw [hrow]
    exact List.get_mem _ _ _
  rcases selectLoop_mem (List.insertionSort distLE df) [] x.row hmem with h2 | h2
  · cases h2
  · exact (List.perm_insertionSort distLE df).mem_iff.mp h2

/-- The snapshot-exclusion mask of `find_analogues` (analogue_search.py lines
529-532): `(date >= actual - min_separation) & (date <= actual + min_separation)`. -/
def excludedB (actual min_separation : Int) (r : Row) : Bool :=
  decide (actual - min_separation ≤ r.date) &&
    decide (r.date ≤ actual + min_separation)

/-- `sel(time=snapshot_date, method='nearest')` over the rows' dates: the date
minimizing the absolute difference to the requested date, ties to the earlier
entry (pandas resolves equal distances to the left neighbour); `none` on an
empty index (where xarray raises instead). -/
def nearestDate (req : Int) (rows : List Row) : Option Int :=
  rows.foldl (fun acc r =>
    match acc with
    | none => some r.date
    | some b => if |r.date - req| < |b - req| then some r.date else some b) none

/-- The outputs of the period-splitting and selection stage of
`find_analogues`: the two candidate subsets and the two ranked analogue lists. -/
structure FindResult where
  pastCandidates : List Row
  presentCandidates : List Row
  pastAnalogues : List Ranked
  presentAnalogues : List Ranked
deriving DecidableEq

/-- The period-splitting and selection fragment of `find_analogues`
(analogue_search.py lines 480-565, `period=None` path): resolve the actual
snapshot date by nearest match, build the past/present year masks from the
period boundaries read with `.get` (an `Option`, no default), remove the
snapshot exclusion window, and select analogues per period. A `none` year
boundary makes the pandas comparison `year >= None` raise a `TypeError`
(pandas rejects `Invalid comparison` at the whole-series level), modelled as
`Except.error` before any candidate subset exists. -/
def find_analogues_select (past_start past_end present_start present_end : Option Int)
    (min_separation : Int) (n_analogues : Nat) (snapshot_date : Int)
    (rows : List Row) : Except String FindResult :=
  match nearestDate snapshot_date rows with
  | none => Except.error "cannot select a reference from an empty time index"
  | some actual =>
    match past_start with
    | none => Except.error "Invalid comparison between dtype=int64 and NoneType"
    | some a =>
      match past_end with
      | none => Except.error "Invalid comparison between dtype=int64 and NoneType"
      | some b =>
        match present_start with
        | none => Except.error "Invalid comparison between dtype=int64 and NoneType"
        | some c =>
          match present_end with
          | none => Except.error "Invalid comparison between dtype=int64 and NoneType"
          | some d =>
            let pastC := rows.filter fun r =>
              (decide (a ≤ r.year) && decide (r.year ≤ b)) &&
                !excludedB actual min_separation r
            let presC := rows.filter fun r =>
              (decide (c ≤ r.year) && decide (r.year ≤ d)) &&
                !excludedB actual min_separation r
            Except.ok ⟨pastC, presC,
              select_time_separated_analogues pastC n_analogues min_separation,
              select_time_separated_analogues presC n_analogues min_separation⟩

theorem not_excluded_sep {actual s d : Int}
    (h : ¬(actual - s ≤ d ∧ d ≤ actual + s)) : s < |d - actual| := by
  rcases abs_cases (d - actual) with ⟨he, h0⟩ | ⟨he, h0⟩ <;> rw [he] <;> omega

/-- C4: in a run of the period-splitting stage of `find_analogues`, every row
of either candidate subset, and every selected analogue of either period, has
a date strictly more than `min_separation` away from the actual resolved
snapshot date (the nearest series timestamp to the requested date). -/
theorem find_analogues_excludes_snapshot_window
    (past_start past_end present_start present_end : Option Int)
    (min_separation : Int) (n_analogues : Nat) (snapshot_date : Int)
    (rows : List Row) (actual : Int) (res : FindResult)
    (hn : nearestDate snapshot_date rows = some actual)
    (h : find_analogues_select past_start past_end present_start present_end
      min_separation n_analogues snapshot_date rows = Except.ok res) :
    (∀ r ∈ res.pastCandidates, min_separation < |r.date - actual|) ∧
    (∀ r ∈ res.presentCandidates, min_separation < |r.date - actual|) ∧
    (∀ x ∈ res.pastAnalogues, min_separation < |x.row.date - actual|) ∧
    (∀ x ∈ res.presentAnalogues, min_separation < |x.row.date - actual|) := by
  unfold find_analogues_select at h
  rw [hn] at h
  rcases past_start with _ | a
  · exact absurd h (by simp)
  rcases past_end with _ | b
  · exact absurd h (by simp)
  rcases present_start with _ | c
  · exact absurd h (by simp)
  rcases present_end with _ | d
  · exact absurd h (by simp)
  simp only [Except.ok.injEq] at h
  subst h
  have hpast : ∀ r ∈ rows.filter fun r =>
      (decide (a ≤ r.year) && decide (r.year ≤ b)) &&
        !excludedB actual min_separation r,
      min_separation < |r.date - actual| := by
    intro r hr
    have hp := List.of_mem_filter hr
    simp only [excludedB, Bool.and_eq_true, Bool.not_eq_true',
      Bool.and_eq_false_iff, decide_eq_true_eq, decide_eq_false_iff_not] at hp
    apply not_excluded_sep
    rcases hp.2 with h1 | h1 <;> tauto
  have hpres : ∀ r ∈ rows.filter fun r =>
      (decide (c ≤ r.year) && decide (r.year ≤ d)) &&
        !excludedB actual min_separation r,
      min_separation < |r.date - actual| := by
    intro r hr
    have hp := List.of_mem_filter hr
    simp only [excludedB, Bool.and_eq_true, Bool.not_eq_true',
      Bool.and_eq_false_iff, decide_eq_true_eq, decide_eq_false_iff_not] at hp
    apply not_excluded_sep
    rcases hp.2 with h1 | h1 <;> tauto
  exact ⟨hpast, hpres,
    fun x hx => hpast x.row (select_row_mem hx),
    fun x hx => hpres x.row (select_row_mem hx)⟩

/-- Witness for C4: a concrete run (snapshot resolves to date 0, separation 2)
whose past candidate subset contains the row at date 10, which is more than 2
time units from the resolved snapshot. -/
theorem find_analogues_excludes_snapshot_window_witness :
    (2 : Int) < |(Row.mk 10 1 2000).date - 0| :=
  (find_analogues_excludes_snapshot_window
    (some 1990) (some 2005) (some 2006) (some 2015) 2 3 1
    [⟨0, 5, 2000⟩, ⟨10, 1, 2000⟩, ⟨20, 2, 2010⟩] 0
    ⟨[⟨10, 1, 2000⟩], [⟨20, 2, 2010⟩],
      [⟨⟨10, 1, 2000⟩, 1⟩], [⟨⟨20, 2, 2010⟩, 1⟩]⟩
    (by decide) rfl).1 ⟨10, 1, 2000⟩ (by decide)

/-- C9: if any configured period boundary (`past/present` `start_year` or
`end_year`) is unset (read as `None`), the period-splitting stage of
`find_analogues` fails with an error and produces no candidate subsets or
selected analogues; no default year range is substituted. -/
theorem find_analogues_missing_year_errors
    (past_start past_end present_start present_end : Option Int)
    (min_separation : Int) (n_analogues : Nat) (snapshot_date : Int)
    (rows : List Row)
    (h : past_start = none ∨ past_end = none ∨ present_start = none ∨
      present_end = none) :
    ∃ msg, find_analogues_select past_start past_end present_start present_end
      min_separation n_analogues snapshot_date rows = Except.error msg := by
  unfold find_analogues_select
  cases hn : nearestDate snapshot_date rows with
  | none => exact ⟨_, rfl⟩
  | some actual =>
    rcases past_start with _ | a
    · exact ⟨_, rfl⟩
    rcases past_end with _ | b
    · exact ⟨_, rfl⟩
    rcases present_start with _ | c
    · exact ⟨_, rfl⟩
    rcases present_end with _ | d
    · exact ⟨_, rfl⟩
    simp at h

/-- Witness for C9: a run with `past.start_year` unset errors out. -/
theorem find_analogues_missing_year_errors_witness :
    ∃ msg, find_analogues_select none (some 1987) (some 1988) (some 2026)
      5 15 0 [⟨0, 1, 2000⟩] = Except.error msg :=
  find_analogues_missing_year_errors none (some 1987) (some 1988) (some 2026)
    5 15 0 [⟨0, 1, 2000⟩] (Or.inl rfl)

/-- A calendar date, as carried by a `pd.Timestamp` (year, month 1-12, day). -/
structure Date where
  year : Int
  month : Nat
  day : Nat
deriving DecidableEq

/-- Gregorian leap-year rule, as used by `pandas.DatetimeIndex.dayofyear`. -/
def isLeap (y : Int) : Bool := (y % 4 == 0 && y % 100 != 0) || y % 400 == 0

/-- Length of a calendar month (pandas calendar semantics). -/
def monthLen (leap : Bool) (m : Nat) : Nat :=
  if m = 2 then (if leap then 29 else 28)
  else if m = 4 ∨ m = 6 ∨ m = 9 ∨ m = 11 then 30
  else 31

/-- `Timestamp.dayofyear`: 1-based ordinal day within the date's own year. -/
def dayOfYear (d : Date) : Nat :=
  ((List.range' 1 (d.month - 1)).map (monthLen (isLeap d.year))).sum + d.day

/-- `compute_calendar_mask(times, snapshot_date, window_days)` (dask_slice.py
lines 23-63): per timestamp, the absolute difference of day-of-year values,
wrapped on a fixed 365-day wheel via `min(diff, 365 - diff)`, compared against
the window half-width. -/
def compute_calendar_mask (times : List Date) (snapshot_date : Date)
    (window_days : Int) : List Bool :=
  times.map fun t =>
    let diff : Int := |(dayOfYear t : Int) - (dayOfYear snapshot_date : Int)|
    decide (min diff (365 - diff) ≤ window_days)

/-- C5 counterexample: 2019-03-01 has the same month and day as the reference
2020-03-01 and the window 0 is ≥ 0, yet the mask excludes it, because the
leap day shifts the reference's day-of-year (61 vs 60) and the code compares
raw day-of-year values. The claim as stated is false. -/
theorem calendar_mask_leap_monthday_counterexample :
    (Date.mk 2019 3 1).month = (Date.mk 2020 3 1).month ∧
    (Date.mk 2019 3 1).day = (Date.mk 2020 3 1).day ∧
    (Date.mk 2019 3 1).year ≠ (Date.mk 2020 3 1).year ∧
    (0 : Int) ≤ 0 ∧
    compute_calendar_mask [Date.mk 2019 3 1] (Date.mk 2020 3 1) 0 = [false] := by
  decide

/-- C5 (amended): for every window ≥ 0, the calendar-window filter includes
(marks `true`) every timestamp whose day-of-year within its own year equals
the reference date's day-of-year — equality of month and day guarantees this
only when the leap day does not shift one of the two ordinals. -/
theorem calendar_mask_same_doy_included
    (times : List Date) (snapshot_date : Date) (window_days : Int) (t : Date)
    (i : Nat) (hw : 0 ≤ window_days)
    (hd : dayOfYear t = dayOfYear snapshot_date)
    (hi : times.get? i = some t) :
    (compute_calendar_mask times snapshot_date window_days).get? i =
      some true := by
  unfold compute_calendar_mask
  rw [List.get?_map, hi]
  simp only [Option.map_some', Option.some.injEq, decide_eq_true_eq, hd]
  simp only [sub_self, abs_zero]
  rw [min_eq_left (by norm_num)]
  exact hw

/-- Witness for C5: 2019-03-01 and the non-leap reference 2021-03-01 share
day-of-year 60, so window 0 includes the timestamp. -/
theorem calendar_mask_same_doy_included_witness :
    (compute_calendar_mask [Date.mk 2019 3 1] (Date.mk 2021 3 1) 0).get? 0 =
      some true :=
  calendar_mask_same_doy_included [Date.mk 2019 3 1] (Date.mk 2021 3 1) 0
    (Date.mk 2019 3 1) 0 (by decide) (by decide) rfl

/-- A spatial weight array: 1-D per-latitude (no longitude given) or a full
2-D (lat, lon) field, matching the two return shapes of
`compute_latitude_weights`. -/
inductive WeightField where
  | oneD (w : List ℝ)
  | twoD (w : List (List ℝ))

/-- Sum of all entries of a weight array (`weights.sum()`). -/
noncomputable def WeightField.total : WeightField → ℝ
  | .oneD w => w.sum
  | .twoD w => (w.map List.sum).sum

/-- The unnormalized weights of `compute_latitude_weights` (analogue_search.py
lines 72-80): `cos(deg2rad(lat))`, optionally multiplied cellwise by the 2-D
Gaussian `exp(-((lat - (-68))^2 + (lon - 296)^2) / (2 * 10^2))` built on the
meshgrid of the coordinate axes. -/
noncomputable def unnormalizedWeights (lat : List ℝ) (lon : Option (List ℝ)) :
    WeightField :=
  match lon with
  | none => .oneD (lat.map fun φ => Real.cos (φ * Real.pi / 180))
  | some lo => .twoD (lat.map fun φ => lo.map fun x =>
      Real.cos (φ * Real.pi / 180) *
        Real.exp (-(((φ - (-68 : ℝ)) ^ 2 + (x - (296 : ℝ)) ^ 2) /
          (2 * (10 : ℝ) ^ 2))))

/-- `weights = weights / weights.sum()` (analogue_search.py line 81). -/
noncomputable def WeightField.normalize : WeightField → WeightField
  | .oneD w => .oneD (w.map fun x => x / w.sum)
  | .twoD w => .twoD (w.map fun row => row.map fun x => x / (w.map List.sum).sum)

/-- `compute_latitude_weights(lat, lon)` (analogue_search.py lines 55-82). -/
noncomputable def compute_latitude_weights (lat : List ℝ)
    (lon : Option (List ℝ)) : WeightField :=
  (unnormalizedWeights lat lon).normalize

/-- The Python function body contains no raise path: the final division is a
numpy array division, which never raises an arithmetic error (a zero divisor
yields NaN/inf entries with at most a RuntimeWarning), so the run always
returns a value. -/
noncomputable def compute_latitude_weights_run (lat : List ℝ)
    (lon : Option (List ℝ)) : Except String WeightField :=
  Except.ok (compute_latitude_weights lat lon)

theorem sum_map_div (w : List ℝ) (s : ℝ) :
    (w.map fun x => x / s).sum = w.sum / s := by
  induction w with
  | nil => simp
  | cons a t ih => simp [ih, add_div]

theorem sum2_map_div (w : List (List ℝ)) (s : ℝ) :
    ((w.map fun row => row.map fun x => x / s).map List.sum).sum =
      (w.map List.sum).sum / s := by
  induction w with
  | nil => simp
  | cons row rest ih =>
    simp only [List.map_cons, List.sum_cons]
    rw [sum_map_div, ih, add_div]

/-- C6 counterexample: on the empty latitude array (no longitude array) the
returned weights sum to 0, not 1 (numpy: an empty array divided by its zero
sum is empty, with sum 0.0), so the claim fails as universally stated. -/
theorem latitude_weights_empty_counterexample :
    (compute_latitude_weights [] none).total ≠ 1 := by
  simp [compute_latitude_weights, unnormalizedWeights, WeightField.normalize,
    WeightField.total]

/-- C6 (amended): for every latitude array (with or without a longitude
array) whose unnormalized weights have a nonzero sum, the weights returned by
`compute_latitude_weights` sum to exactly 1. -/
theorem latitude_weights_total_one (lat : List ℝ) (lon : Option (List ℝ))
    (h : (unnormalizedWeights lat lon).total ≠ 0) :
    (compute_latitude_weights lat lon).total = 1 := by
  cases lon with
  | none =>
    simp only [unnormalizedWeights, WeightField.total] at h
    simp only [compute_latitude_weights, unnormalizedWeights,
      WeightField.normalize, WeightField.total]
    rw [sum_map_div]
    exact div_self h
  | some lo =>
    simp only [unnormalizedWeights, WeightField.total] at h
    simp only [compute_latitude_weights, unnormalizedWeights,
      WeightField.normalize, WeightField.total]
    rw [sum2_map_div]
    exact div_self h

/-- Witness for C6: latitude array `[0]`, no longitude; the unnormalized sum
is `cos 0 = 1 ≠ 0` and the normalized total is 1. -/
theorem latitude_weights_total_one_witness :
    (compute_latitude_weights [0] none).total = 1 :=
  latitude_weights_total_one [0] none
    (by simp [unnormalizedWeights, WeightField.total])

/-- C7 (code bug): at the degenerate latitude array `[90]`, the unnormalized
weight sum is exactly 0 (cos 90° = 0 in exact arithmetic), yet the run
completes without an arithmetic error, silently returning the degenerate
normalized weights (the exact-real stand-in for numpy's silent NaN result);
the spec requires a loud arithmetic failure here. -/
theorem latitude_weights_zero_sum_silent :
    (unnormalizedWeights [(90 : ℝ)] none).total = 0 ∧
    compute_latitude_weights_run [(90 : ℝ)] none =
      Except.ok (WeightField.oneD [0]) := by
  have harg : (90 : ℝ) * Real.pi / 180 = Real.pi / 2 := by ring
  constructor
  · simp [unnormalizedWeights, WeightField.total, harg]
  · simp [compute_latitude_weights_run, compute_latitude_weights,
      unnormalizedWeights, WeightField.normalize, harg]

/-- The Gaussian-modulated weight field as the spec describes it, with the
emphasis parameters (center latitude, center longitude, sigma) as explicit
inputs. -/
noncomputable def gaussianWeightsSpec (centerLat centerLon sigma : ℝ)
    (lat lon : List ℝ) : List (List ℝ) :=
  lat.map fun φ => lon.map fun x =>
    Real.cos (φ * Real.pi / 180) *
      Real.exp (-(((φ - centerLat) ^ 2 + (x - centerLon) ^ 2) /
        (2 * sigma ^ 2)))

/-- C10: whenever a longitude array is supplied, `compute_latitude_weights`
equals the normalized spec Gaussian weight field instantiated at the fixed
constants center latitude −68, center longitude 296 and sigma 10, for every
latitude and longitude input: the emphasis parameters are hardcoded, not
inputs. -/
theorem gaussian_weights_fixed_constants (lat lon : List ℝ) :
    compute_latitude_weights lat (some lon) =
      (WeightField.twoD (gaussianWeightsSpec (-68) 296 10 lat lon)).normalize :=
  rfl

/-- `compute_euclidean_distances(data, reference, lat_weights)`
(analogue_search.py lines 221-261): per time step, subtract the reference
cellwise, square, multiply by the weight field cellwise, and sum over the
spatial cells. -/
noncomputable def compute_euclidean_distances (data : List (List (List ℝ)))
    (reference : List (List ℝ)) (lat_weights : List (List ℝ)) : List ℝ :=
  data.map fun field =>
    (List.zipWith (fun srow wrow =>
        (List.zipWith (fun s w => s * w) srow wrow).sum)
      (List.zipWith (fun frow rrow =>
          List.zipWith (fun a b => (a - b) ^ 2) frow rrow)
        field reference)
      lat_weights).sum

theorem row_self_weighted_zero (row wrow : List ℝ) :
    (List.zipWith (fun s w => s * w)
      (List.zipWith (fun a b => (a - b) ^ 2) row row) wrow).sum = 0 := by
  induction row generalizing wrow with
  | nil => simp
  | cons a t ih =>
    cases wrow with
    | nil => simp
    | cons c w =>
      simp only [List.zipWith_cons_cons, List.sum_cons]
      rw [ih]
      norm_num

theorem field_self_zero (reference w : List (List ℝ)) :
    (List.zipWith (fun srow wrow =>
        (List.zipWith (fun s w' => s * w') srow wrow).sum)
      (List.zipWith (fun frow rrow =>
          List.zipWith (fun a b => (a - b) ^ 2) frow rrow)
        reference reference)
      w).sum = 0 := by
  induction reference generalizing w with
  | nil => simp
  | cons row rest ih =>
    cases w with
    | nil => simp
    | cons wrow wrest =>
      simp only [List.zipWith_cons_cons, List.sum_cons]
      rw [row_self_weighted_zero, ih]
      norm_num

/-- C8: for every gridded series, weight field and reference pattern, if the
reference equals the series field at time step t cell for cell, then the
distance computed by `compute_euclidean_distances` at time step t is 0. -/
theorem euclidean_distance_self_zero (data : List (List (List ℝ)))
    (reference lat_weights : List (List ℝ)) (t : Nat)
    (h : data.get? t = some reference) :
    (compute_euclidean_distances data reference lat_weights).get? t =
      some 0 := by
  unfold compute_euclidean_distances
  rw [List.get?_map, h]
  simp only [Option.map_some', Option.some.injEq]
  exact field_self_zero reference lat_weights

/-- Witness for C8: a one-step series whose single field equals the
reference; its distance is 0. -/
theorem euclidean_distance_self_zero_witness :
    (compute_euclidean_distances [[[1]]] [[1]] [[2]]).get? 0 = some 0 :=
  euclidean_distance_self_zero [[[1]]] [[1]] [[2]] 0 rfl
